import Mathlib

/-!
# UmaskScope

A shallow embedding of `src/UmaskScope.hpp`: the guard class `UmaskScope`, whose
constructor installs a new process-global umask and whose destructor puts the
previous one back.

The process is an explicit state (the file mode creation mask together with the
trace of calls made to the `umask` primitive); the constructor and destructor
are state-passing functions, and the preprocessor switch `#ifndef _WIN32` is a
parameter of type `Build`.
-/

namespace UmaskScopeModel

/-- The platform type `mode_t` of `<sys/types.h>`, an unsigned machine integer.
No arithmetic is done on it here, so its width plays no role. -/
abbrev mode_t := Nat

/-- The file permission bits `S_IRWXU | S_IRWXG | S_IRWXO`. -/
def permBits : mode_t := 0o777

/-- The two preprocessor configurations of the header: `posix` is the build
where `_WIN32` is not defined, `win32` the build where it is. -/
inductive Build where
  | posix
  | win32
  deriving DecidableEq, Repr

/-- The part of the process state the header touches: the process-wide file mode
creation mask, and the arguments of the calls made to `umask`, oldest first. -/
structure Process where
  mask : mode_t
  calls : List mode_t
  deriving DecidableEq, Repr

/-- The system call `umask` of `<sys/stat.h>`, as documented in umask(2): it
sets the file mode creation mask of the calling process to `cmask & 0777` (only
the file permission bits of the argument are used) and returns the previous
value of the mask. It always succeeds. -/
def umask (cmask : mode_t) (s : Process) : mode_t × Process :=
  (s.mask, { mask := cmask &&& permBits, calls := s.calls ++ [cmask] })

/-- The class `UmaskScope`: its one data member, initialised to `std::nullopt`. -/
structure UmaskScope where
  m_saved_umask : Option mode_t := none
  deriving DecidableEq, Repr

/-- The constructor `UmaskScope::UmaskScope(std::optional<mode_t> new_umask)`.
It returns the constructed object and the process state after the call. -/
def UmaskScope.construct (b : Build) (new_umask : Option mode_t) (s : Process) :
    UmaskScope × Process :=
  match b with
  | Build.posix =>
    match new_umask with
    | some v =>
      let r := umask v s
      ({ m_saved_umask := some r.1 }, r.2)
    | none => ({ m_saved_umask := none }, s)
  | Build.win32 => ({ m_saved_umask := none }, s)

/-- The destructor `UmaskScope::~UmaskScope()`, returning the process state
after the call. -/
def UmaskScope.destruct (b : Build) (g : UmaskScope) (s : Process) : Process :=
  match b with
  | Build.posix =>
    match g.m_saved_umask with
    | some v => (umask v s).2
    | none => s
  | Build.win32 => s

/-- The way control leaves the body of a block: by reaching its end, by an
early `return`, or by an exception that propagates out of it. -/
inductive Exit where
  | normal
  | earlyReturn
  | thrown
  deriving DecidableEq, Repr

/-- A block `{ UmaskScope scope(new_umask); body }`. The object has automatic
storage duration, so its destructor is run when control leaves the block, on
each of the three exit paths, after which the exit is passed on to the
enclosing code. The body acts on the process state and cannot reach the
private member of the object. -/
def runScoped (b : Build) (new_umask : Option mode_t) (body : Process → Exit × Process)
    (s : Process) : Exit × Process :=
  let c := UmaskScope.construct b new_umask s
  match body c.2 with
  | (Exit.normal, t) => (Exit.normal, UmaskScope.destruct b c.1 t)
  | (Exit.earlyReturn, t) => (Exit.earlyReturn, UmaskScope.destruct b c.1 t)
  | (Exit.thrown, t) => (Exit.thrown, UmaskScope.destruct b c.1 t)

/-! ## Facts about the primitive -/

theorem and_permBits_eq_mod (m : Nat) : m &&& permBits = m % 512 := by
  have h := Nat.and_pow_two_sub_one_eq_mod m 9
  simpa [permBits] using h

theorem and_permBits_of_le (m : Nat) (h : m ≤ permBits) : m &&& permBits = m := by
  rw [and_permBits_eq_mod]
  have h1 : permBits = 511 := rfl
  rw [h1] at h
  exact Nat.mod_eq_of_lt (by omega)

theorem and_permBits_le (m : Nat) : m &&& permBits ≤ permBits := by
  rw [and_permBits_eq_mod]
  have h1 : permBits = 511 := rfl
  have h2 : m % 512 < 512 := Nat.mod_lt m (by decide)
  rw [h1]
  omega

theorem and_permBits_eq_iff (m : Nat) : m &&& permBits = m ↔ m ≤ permBits := by
  constructor
  · intro h
    rw [← h]
    exact and_permBits_le m
  · exact and_permBits_of_le m

/-- The mask a process has after any call to `umask` lies within the permission
bits: this is why a starting process mask is taken within `permBits`. -/
theorem umask_mask_le (cmask : mode_t) (s : Process) : (umask cmask s).2.mask ≤ permBits :=
  and_permBits_le cmask

/-- Whatever the exit path, a scoped run ends in the state the destructor
produces from the state the body left, and hands on the exit of the body. -/
theorem runScoped_eq (b : Build) (new_umask : Option mode_t) (body : Process → Exit × Process)
    (s : Process) :
    runScoped b new_umask body s =
      ((body (UmaskScope.construct b new_umask s).2).1,
        UmaskScope.destruct b (UmaskScope.construct b new_umask s).1
          (body (UmaskScope.construct b new_umask s).2).2) := by
  unfold runScoped
  rcases h : body (UmaskScope.construct b new_umask s).2 with ⟨e, t⟩
  cases e <;> simp [h]

/-- The masks seen along two nested scopes closed in LIFO order, for arbitrary
requested values: the primitive keeps the permission bits of each request. -/
theorem nested_masks (m1 m2 : mode_t) (s : Process) :
    (UmaskScope.construct Build.posix (some m2)
      (UmaskScope.construct Build.posix (some m1) s).2).2.mask = m2 &&& permBits ∧
    (UmaskScope.destruct Build.posix
      (UmaskScope.construct Build.posix (some m2)
        (UmaskScope.construct Build.posix (some m1) s).2).1
      (UmaskScope.construct Build.posix (some m2)
        (UmaskScope.construct Build.posix (some m1) s).2).2).mask = m1 &&& permBits := by
  constructor
  · rfl
  · simp only [UmaskScope.construct, UmaskScope.destruct, umask]
    exact and_permBits_of_le _ (and_permBits_le m1)

/-! ## Construction followed by destruction -/

/-- C1: on the build with a process mask, for every concrete mask value `m` and
every starting process mask `p` (a process mask lies within the permission
bits), constructing a `UmaskScope` with `m` and then destroying it leaves the
process-wide mask equal to `p`: the constructor saves the value the
query-and-set returned, which is `p`, and the destructor sets the mask back to
that saved value. -/
theorem construct_destruct_restores (m : mode_t) (s : Process) (hp : s.mask ≤ permBits) :
    (UmaskScope.construct Build.posix (some m) s).1.m_saved_umask = some (umask m s).1 ∧
    (umask m s).1 = s.mask ∧
    (UmaskScope.destruct Build.posix (UmaskScope.construct Build.posix (some m) s).1
      (UmaskScope.construct Build.posix (some m) s).2).mask = s.mask := by
  refine ⟨rfl, rfl, ?_⟩
  simp only [UmaskScope.construct, UmaskScope.destruct, umask]
  exact and_permBits_of_le s.mask hp

/-- The scenario of the specification: starting mask `0o022`, requested mask
`0o077`, the mask reads `0o022` again once the object is destroyed. -/
theorem construct_destruct_restores_witness :
    (0o022 : Nat) ≤ permBits ∧
    (UmaskScope.destruct Build.posix
      (UmaskScope.construct Build.posix (some 0o077) { mask := 0o022, calls := [] }).1
      (UmaskScope.construct Build.posix (some 0o077) { mask := 0o022, calls := [] }).2).mask
      = 0o022 :=
  ⟨by decide, (construct_destruct_restores 0o077 { mask := 0o022, calls := [] } (by decide)).2.2⟩

/-- C2, as amended: on the build with a process mask, for every concrete mask
value `m` and every starting process state, right after constructing a
`UmaskScope` with `m` the process-wide mask equals `m & 0o777`, the permission
bits of `m`; it equals `m` itself exactly when `m` lies within `0o777`. -/
theorem construct_sets_permission_bits (m : mode_t) (s : Process) :
    (UmaskScope.construct Build.posix (some m) s).2.mask = m &&& permBits ∧
    ((UmaskScope.construct Build.posix (some m) s).2.mask = m ↔ m ≤ permBits) :=
  ⟨rfl, and_permBits_eq_iff m⟩

/-- C2 fails as stated: requested with the value `0o10077` of `mode_t`, which
has a bit outside `0o777`, the constructor leaves the process-wide mask at
`0o077`, not at `0o10077`. -/
theorem construct_mask_ne_requested :
    (UmaskScope.construct Build.posix (some 0o10077) { mask := 0o022, calls := [] }).2.mask
      = 0o077 ∧
    (UmaskScope.construct Build.posix (some 0o10077) { mask := 0o022, calls := [] }).2.mask
      ≠ 0o10077 := by
  decide

/-- C3: on the build with a process mask, for every starting process state,
constructing a `UmaskScope` with an absent value leaves the process state as it
was (the mask, and no call to the primitive), saves nothing, and destroying
that object leaves the state as it was again. -/
theorem absent_request_changes_nothing (s : Process) :
    (UmaskScope.construct Build.posix none s).2 = s ∧
    (UmaskScope.construct Build.posix none s).1.m_saved_umask = none ∧
    UmaskScope.destruct Build.posix (UmaskScope.construct Build.posix none s).1
      (UmaskScope.construct Build.posix none s).2 = s ∧
    (UmaskScope.construct Build.posix none s).2.mask = s.mask ∧
    (UmaskScope.destruct Build.posix (UmaskScope.construct Build.posix none s).1
      (UmaskScope.construct Build.posix none s).2).mask = s.mask :=
  ⟨rfl, rfl, rfl, rfl, rfl⟩

/-! ## Nested scopes -/

/-- C4: on the build with a process mask, for every starting process mask `p`
and all masks `m1`, `m2` (values within the permission bits), with an outer
`UmaskScope` constructed with `m1`, an inner one constructed with `m2`, and the
two destroyed inner first, the process mask is `m2` while both are alive, `m1`
once the inner one is destroyed, and `p` once the outer one is destroyed. -/
theorem nested_lifo (m1 m2 : mode_t) (s : Process) (hp : s.mask ≤ permBits)
    (h1 : m1 ≤ permBits) (h2 : m2 ≤ permBits) :
    (UmaskScope.construct Build.posix (some m2)
      (UmaskScope.construct Build.posix (some m1) s).2).2.mask = m2 ∧
    (UmaskScope.destruct Build.posix
      (UmaskScope.construct Build.posix (some m2)
        (UmaskScope.construct Build.posix (some m1) s).2).1
      (UmaskScope.construct Build.posix (some m2)
        (UmaskScope.construct Build.posix (some m1) s).2).2).mask = m1 ∧
    (UmaskScope.destruct Build.posix (UmaskScope.construct Build.posix (some m1) s).1
      (UmaskScope.destruct Build.posix
        (UmaskScope.construct Build.posix (some m2)
          (UmaskScope.construct Build.posix (some m1) s).2).1
        (UmaskScope.construct Build.posix (some m2)
          (UmaskScope.construct Build.posix (some m1) s).2).2)).mask = s.mask := by
  refine ⟨?_, ?_, ?_⟩
  · rw [(nested_masks m1 m2 s).1]
    exact and_permBits_of_le m2 h2
  · rw [(nested_masks m1 m2 s).2]
    exact and_permBits_of_le m1 h1
  · simp only [UmaskScope.construct, UmaskScope.destruct, umask]
    exact and_permBits_of_le s.mask hp

theorem nested_lifo_witness :
    (0o022 : Nat) ≤ permBits ∧ (0o077 : Nat) ≤ permBits ∧ (0o027 : Nat) ≤ permBits ∧
    (UmaskScope.construct Build.posix (some 0o027)
      (UmaskScope.construct Build.posix (some 0o077)
        { mask := 0o022, calls := [] }).2).2.mask = 0o027 :=
  ⟨by decide, by decide, by decide,
    (nested_lifo 0o077 0o027 { mask := 0o022, calls := [] }
      (by decide) (by decide) (by decide)).1⟩

/-- C10: on the build with a process mask, destroying two nested objects in
construction order does not bring the starting mask back. With object A
constructed with `m1` (a value within the permission bits), then object B
constructed with `m2`, then A destroyed and then B destroyed, the final mask is
the value B saved, which is the mask A installed, `m1`; the destructor of B
writes its saved value whatever mask is in effect. There are a starting mask
and requested masks for which the final mask differs from the starting one. -/
theorem out_of_order_leaves_first_mask (m1 m2 : mode_t) (s : Process) (h1 : m1 ≤ permBits) :
    (UmaskScope.construct Build.posix (some m2)
      (UmaskScope.construct Build.posix (some m1) s).2).1.m_saved_umask
      = some (UmaskScope.construct Build.posix (some m1) s).2.mask ∧
    (UmaskScope.construct Build.posix (some m1) s).2.mask = m1 ∧
    (UmaskScope.destruct Build.posix
      (UmaskScope.construct Build.posix (some m2)
        (UmaskScope.construct Build.posix (some m1) s).2).1
      (UmaskScope.destruct Build.posix (UmaskScope.construct Build.posix (some m1) s).1
        (UmaskScope.construct Build.posix (some m2)
          (UmaskScope.construct Build.posix (some m1) s).2).2)).mask = m1 ∧
    (∀ t : Process,
      (UmaskScope.destruct Build.posix
        (UmaskScope.construct Build.posix (some m2)
          (UmaskScope.construct Build.posix (some m1) s).2).1 t).mask = m1) ∧
    (∃ (q : Process) (n1 n2 : mode_t),
      q.mask ≤ permBits ∧ n1 ≤ permBits ∧ n2 ≤ permBits ∧
      (UmaskScope.destruct Build.posix
        (UmaskScope.construct Build.posix (some n2)
          (UmaskScope.construct Build.posix (some n1) q).2).1
        (UmaskScope.destruct Build.posix (UmaskScope.construct Build.posix (some n1) q).1
          (UmaskScope.construct Build.posix (some n2)
            (UmaskScope.construct Build.posix (some n1) q).2).2)).mask ≠ q.mask) := by
  have hA : m1 &&& permBits = m1 := and_permBits_of_le m1 h1
  refine ⟨rfl, hA, ?_, ?_, ?_⟩
  · simp only [UmaskScope.construct, UmaskScope.destruct, umask]
    rw [hA]
    exact hA
  · intro t
    simp only [UmaskScope.construct, UmaskScope.destruct, umask]
    rw [hA]
    exact hA
  · exact ⟨{ mask := 0o022, calls := [] }, 0o077, 0o027, by decide, by decide, by decide,
      by decide⟩

theorem out_of_order_leaves_first_mask_witness :
    (0o077 : Nat) ≤ permBits ∧
    (UmaskScope.destruct Build.posix
      (UmaskScope.construct Build.posix (some 0o027)
        (UmaskScope.construct Build.posix (some 0o077) { mask := 0o022, calls := [] }).2).1
      (UmaskScope.destruct Build.posix
        (UmaskScope.construct Build.posix (some 0o077) { mask := 0o022, calls := [] }).1
        (UmaskScope.construct Build.posix (some 0o027)
          (UmaskScope.construct Build.posix (some 0o077)
            { mask := 0o022, calls := [] }).2).2)).mask = 0o077 :=
  ⟨by decide,
    (out_of_order_leaves_first_mask 0o077 0o027 { mask := 0o022, calls := [] }
      (by decide)).2.2.1⟩

/-! ## The saved value -/

/-- C5: on the build with a process mask, for every optional requested mask and
every starting process state, the member `m_saved_umask` of the constructed
object holds a value if and only if the request held one; for an absent
request it is empty. -/
theorem saved_populated_iff_requested (new_umask : Option mode_t) (s : Process) :
    ((UmaskScope.construct Build.posix new_umask s).1.m_saved_umask.isSome = true ↔
      new_umask.isSome = true) ∧
    ((UmaskScope.construct Build.posix new_umask s).1.m_saved_umask = none ↔
      new_umask = none) ∧
    (UmaskScope.construct Build.posix none s).1.m_saved_umask = none := by
  cases new_umask <;> simp [UmaskScope.construct]

/-! ## Exit paths -/

/-- C6: on the build with a process mask, for every concrete mask `m`, every
starting process mask `p` and every body (in particular every body that leaves
the mask as it found it), running the body in a block guarded by a
`UmaskScope` constructed with `m` ends with the process mask equal to `p`,
whichever way the body ends (normal completion, early return, exception); the
exit of the body is passed on, and the destructor runs once on each path: the
calls made to the primitive after the body are the single call `umask(p)`. -/
theorem runScoped_restores (m : mode_t) (s : Process) (body : Process → Exit × Process)
    (hp : s.mask ≤ permBits) :
    (runScoped Build.posix (some m) body s).2.mask = s.mask ∧
    (runScoped Build.posix (some m) body s).1
      = (body (UmaskScope.construct Build.posix (some m) s).2).1 ∧
    (runScoped Build.posix (some m) body s).2.calls
      = (body (UmaskScope.construct Build.posix (some m) s).2).2.calls ++ [s.mask] := by
  rw [runScoped_eq]
  refine ⟨?_, rfl, rfl⟩
  simp only [UmaskScope.construct, UmaskScope.destruct, umask]
  exact and_permBits_of_le s.mask hp

theorem runScoped_restores_witness :
    (0o022 : Nat) ≤ permBits ∧
    (runScoped Build.posix (some 0o077) (fun t => (Exit.normal, t))
      { mask := 0o022, calls := [] }).2.mask = 0o022 ∧
    (runScoped Build.posix (some 0o077) (fun t => (Exit.earlyReturn, t))
      { mask := 0o022, calls := [] }).2.mask = 0o022 ∧
    (runScoped Build.posix (some 0o077) (fun t => (Exit.thrown, t))
      { mask := 0o022, calls := [] }).2.mask = 0o022 ∧
    (runScoped Build.posix (some 0o077) (fun t => (Exit.thrown, t))
      { mask := 0o022, calls := [] }).1 = Exit.thrown :=
  ⟨by decide,
    (runScoped_restores 0o077 { mask := 0o022, calls := [] } (fun t => (Exit.normal, t))
      (by decide)).1,
    (runScoped_restores 0o077 { mask := 0o022, calls := [] } (fun t => (Exit.earlyReturn, t))
      (by decide)).1,
    (runScoped_restores 0o077 { mask := 0o022, calls := [] } (fun t => (Exit.thrown, t))
      (by decide)).1,
    (runScoped_restores 0o077 { mask := 0o022, calls := [] } (fun t => (Exit.thrown, t))
      (by decide)).2.1⟩

/-! ## The build without a process mask -/

/-- C7: on the `_WIN32` build, for every optional requested mask, a present
value included, every object and every process state, the constructor and the
destructor do nothing: the process state (mask and trace of calls to the
primitive) is unchanged and the member `m_saved_umask` stays empty. -/
theorem win32_noop (new_umask : Option mode_t) (g : UmaskScope) (s : Process) :
    (UmaskScope.construct Build.win32 new_umask s).2 = s ∧
    (UmaskScope.construct Build.win32 new_umask s).1.m_saved_umask = none ∧
    UmaskScope.destruct Build.win32 g s = s ∧
    (UmaskScope.destruct Build.win32 (UmaskScope.construct Build.win32 new_umask s).1
      (UmaskScope.construct Build.win32 new_umask s).2).calls = s.calls :=
  ⟨rfl, rfl, rfl, rfl⟩

/-! ## Calls to the primitive -/

/-- C8: on the build with a process mask, over one lifetime of a `UmaskScope`
requested with a present mask `m`, the calls made to the primitive are two:
`umask(m)` by the constructor, then `umask` of the value that first call
returned (the starting mask) by the destructor; the first is already there
right after construction. Requested with an absent mask, neither the
constructor nor the destructor calls the primitive. -/
theorem lifetime_calls (m : mode_t) (s : Process) :
    (UmaskScope.construct Build.posix (some m) s).2.calls = s.calls ++ [m] ∧
    (UmaskScope.destruct Build.posix (UmaskScope.construct Build.posix (some m) s).1
      (UmaskScope.construct Build.posix (some m) s).2).calls
      = s.calls ++ [m, (umask m s).1] ∧
    (umask m s).1 = s.mask ∧
    (UmaskScope.construct Build.posix none s).2.calls = s.calls ∧
    (UmaskScope.destruct Build.posix (UmaskScope.construct Build.posix none s).1
      (UmaskScope.construct Build.posix none s).2).calls = s.calls := by
  refine ⟨rfl, ?_, rfl, rfl, rfl⟩
  simp [UmaskScope.construct, UmaskScope.destruct, umask]

/-! ## Restoring twice -/

/-- C9: on either build, for every object (saved mask present or absent) and
every process state, running the restore action of the destructor twice in a
row leaves the same process mask as running it once. -/
theorem destruct_twice_mask (b : Build) (g : UmaskScope) (s : Process) :
    (UmaskScope.destruct b g (UmaskScope.destruct b g s)).mask
      = (UmaskScope.destruct b g s).mask := by
  cases b
  · rcases g with ⟨_ | v⟩ <;> rfl
  · rfl

end UmaskScopeModel
